import Mathlib

/-!
# Verification of the standalone Polymarket BTC 15-minute trader

Shallow embedding of the decision-and-settlement core:
guardrail state (`src/guardrails.ts`), the trade ledger (`trade-log`,
appended at the end of `guardrails.ts`), the strategy evaluator
(`strategy.ts` and the take-profit variant), the buy executor
(`executor.ts`, the variant with the ledger idempotency gate), and the
redemption sweeper (`redeemer.ts`).

Modelling conventions:
* JavaScript numbers are embedded as exact rationals (`ℚ`);
  `Math.floor` is `Int.floor`, `Math.abs` is `|·|`.
* A JS `Map` (insertion-ordered, unique keys) is an association list
  `List (String × α)`: `set` replaces the first matching key in place or
  appends, `delete` removes the first matching key, `get` finds the first.
* Module-level mutable state becomes explicit state passing: every
  function that reads or writes the guardrail singleton takes the state
  and returns the updated state.
* `Date.now()` / `new Date().toISOString()` become explicit `now` /
  `today` / `timeStr` parameters.
* Human-readable reason/message template strings are embedded as
  inductive tags (the numeric interpolation is presentation only).
* Fallible external calls (order client, RPC peer, Gamma API) are
  supplied as oracle parameters (`Except`/`Option`/response records).
-/

namespace PolyBot

/-- JS `String.prototype.includes`: substring containment on char lists. -/
def strContainsAux (pat : List Char) : List Char → Bool
  | [] => pat.isPrefixOf []
  | c :: cs => pat.isPrefixOf (c :: cs) || strContainsAux pat cs

/-- `s.includes(pat)` from JS. -/
def strContains (s pat : String) : Bool :=
  strContainsAux pat.toList s.toList

/-- JS `x || d` for a possibly-absent / possibly-empty string. -/
def jsOr (x : Option String) (d : String) : String :=
  match x with
  | some s => if s = "" then d else s
  | none => d

/-- The TS union type `"Up" | "Down"`. -/
inductive UpDown where
  | up
  | down
  deriving DecidableEq, Repr

/-- `PositionRecord` from `guardrails.ts`.  The first file version also
stores the market's `negRisk` flag; the guardrail operations never read
it, so it is carried here for the executor's benefit. -/
structure PositionRecord where
  conditionId : String
  tokenId : String
  outcome : UpDown
  entryPrice : ℚ
  size : ℚ
  costBasis : ℚ
  entryTime : ℚ
  marketSlug : String
  negRisk : Bool
  deriving DecidableEq, Repr

/-- The position map `Map<string, PositionRecord>` as an assoc list. -/
abbrev PosMap := List (String × PositionRecord)

/-- JS `Map.prototype.get`: first entry with the key. -/
def mapGet (m : PosMap) (k : String) : Option PositionRecord :=
  match m with
  | [] => none
  | (k1, v) :: rest => if k1 = k then some v else mapGet rest k

/-- JS `Map.prototype.set`: replace the first entry with the key in
place, else append. -/
def mapSet (m : PosMap) (k : String) (v : PositionRecord) : PosMap :=
  match m with
  | [] => [(k, v)]
  | (k1, v1) :: rest =>
    if k1 = k then (k, v) :: rest else (k1, v1) :: mapSet rest k v

/-- JS `Map.prototype.delete`: remove the first entry with the key. -/
def mapDelete (m : PosMap) (k : String) : PosMap :=
  match m with
  | [] => []
  | (k1, v1) :: rest =>
    if k1 = k then rest else (k1, v1) :: mapDelete rest k

/-- `GuardrailState` from `guardrails.ts` (the full risk tracker). -/
structure GuardrailState where
  dailyPnl : ℚ
  dailyTradeCount : ℕ
  hourlyTrades : List ℚ
  totalExposure : ℚ
  openPositions : PosMap
  killswitch : Bool
  lastResetDay : String
  deriving DecidableEq, Repr

/-- `createFreshState()`; the current UTC date string is a parameter. -/
def createFreshState (today : String) : GuardrailState where
  dailyPnl := 0
  dailyTradeCount := 0
  hourlyTrades := []
  totalExposure := 0
  openPositions := []
  killswitch := false
  lastResetDay := today

/-- `TraderConfig` from `config.ts` (the full plugin version; the
credential and signature fields are irrelevant to these claims). -/
structure TraderConfig where
  enabled : Bool
  dryRun : Bool
  maxOrderSize : ℚ
  maxPositionSize : ℚ
  maxDailyLoss : ℚ
  maxTradesPerHour : ℕ
  minEntryPrice : ℚ
  entryWindowMinStart : ℚ
  entryWindowMinEnd : ℚ
  takeProfitPct : ℚ
  tickIntervalSec : ℚ
  deriving DecidableEq, Repr

/-- `maybeResetDaily()`: reset the daily counters on a UTC-day change;
the killswitch is deliberately not reset. -/
def maybeResetDaily (today : String) (s : GuardrailState) : GuardrailState :=
  if today ≠ s.lastResetDay then
    { s with dailyPnl := 0, dailyTradeCount := 0, hourlyTrades := [],
             lastResetDay := today }
  else s

/-- `pruneHourlyTrades()`: drop timestamps older than one hour
(3,600,000 ms). -/
def pruneHourlyTrades (now : ℚ) (s : GuardrailState) : GuardrailState :=
  { s with hourlyTrades := s.hourlyTrades.filter (fun t => t > now - 3600000) }

/-- Which pre-trade check denied the order (the string template each tag
stands for is in `checkPreTrade` in the source). -/
inductive DenyReason where
  | killswitch
  | disabled
  | orderTooLarge
  | maxPosition
  | dailyLoss
  | hourlyLimit
  deriving DecidableEq, Repr

/-- `PreTradeCheck` from `guardrails.ts`. -/
structure PreTradeCheck where
  allowed : Bool
  reason : Option DenyReason
  deriving DecidableEq, Repr

/-- `checkPreTrade(config, orderSizeUSDC)`: day rollover and hourly
pruning first, then the short-circuiting checks in source order.
Returns the mutated module state together with the verdict. -/
def checkPreTrade (today : String) (now : ℚ) (config : TraderConfig)
    (orderSizeUSDC : ℚ) (s0 : GuardrailState) :
    GuardrailState × PreTradeCheck :=
  let s := pruneHourlyTrades now (maybeResetDaily today s0)
  if s.killswitch then
    (s, ⟨false, some .killswitch⟩)
  else if ¬ config.enabled then
    (s, ⟨false, some .disabled⟩)
  else if orderSizeUSDC > config.maxOrderSize then
    (s, ⟨false, some .orderTooLarge⟩)
  else if s.totalExposure + orderSizeUSDC > config.maxPositionSize then
    (s, ⟨false, some .maxPosition⟩)
  else if |s.dailyPnl| ≥ config.maxDailyLoss ∧ s.dailyPnl < 0 then
    (s, ⟨false, some .dailyLoss⟩)
  else if s.hourlyTrades.length ≥ config.maxTradesPerHour then
    (s, ⟨false, some .hourlyLimit⟩)
  else
    (s, ⟨true, none⟩)

/-- `recordTrade(position)`. -/
def recordTrade (now : ℚ) (position : PositionRecord)
    (s : GuardrailState) : GuardrailState :=
  { s with
    hourlyTrades := s.hourlyTrades ++ [now]
    dailyTradeCount := s.dailyTradeCount + 1
    totalExposure := s.totalExposure + position.costBasis
    openPositions := mapSet s.openPositions position.conditionId position }

/-- `recordClose(conditionId, proceeds)`: no-op when the key is absent;
else realize P&L, shrink exposure, drop the position, and auto-trip the
killswitch at the fixed 25-dollar daily-loss threshold. -/
def recordClose (conditionId : String) (proceeds : ℚ)
    (s : GuardrailState) : GuardrailState :=
  match mapGet s.openPositions conditionId with
  | none => s
  | some pos =>
    let pnl := proceeds - pos.costBasis
    let s1 := { s with
      dailyPnl := s.dailyPnl + pnl
      totalExposure := s.totalExposure - pos.costBasis
      openPositions := mapDelete s.openPositions conditionId }
    if s1.dailyPnl < 0 ∧ |s1.dailyPnl| ≥ 25 then
      { s1 with killswitch := true }
    else s1

/-- `activateKillswitch(reason)` (the reason is only logged). -/
def activateKillswitch (_reason : String) (s : GuardrailState) :
    GuardrailState :=
  { s with killswitch := true }

/-- `resetKillswitch()`. -/
def resetKillswitch (s : GuardrailState) : GuardrailState :=
  { s with killswitch := false }

/-- `getGuardrailState()`: runs the rollover and pruning, then returns
the mutated state together with the snapshot (state plus
`positionsList`). -/
def getGuardrailState (today : String) (now : ℚ) (s0 : GuardrailState) :
    GuardrailState × (GuardrailState × List PositionRecord) :=
  let s := pruneHourlyTrades now (maybeResetDaily today s0)
  (s, (s, s.openPositions.map (fun kv => kv.2)))

/-! ## Trade ledger (`trade-log`, appended at the end of `guardrails.ts`) -/

/-- A line of the append-only JSONL trade log: a buy fact or a
resolution fact. -/
inductive LedgerEntry where
  | buy (time slug : String) (outcome : UpDown) (price size cost : ℚ)
        (orderId : String)
  | resolution (time slug : String) (resolved : UpDown)
  deriving DecidableEq, Repr

/-- The `type` tag written on the JSONL line. -/
def entryType : LedgerEntry → String
  | .buy .. => "buy"
  | .resolution .. => "resolution"

/-- The `slug` field of a ledger entry. -/
def entrySlug : LedgerEntry → String
  | .buy _ slug .. => slug
  | .resolution _ slug _ => slug

/-- `hasEntry(type, slug)`: scan from the most recent line backward for
the first entry of the kind with the slug. -/
def hasEntry (ty slug : String) (ledger : List LedgerEntry) : Bool :=
  ledger.reverse.any (fun e => entryType e = ty ∧ entrySlug e = slug)

/-- `hasBoughtSlug(slug)`. -/
def hasBoughtSlug (slug : String) (ledger : List LedgerEntry) : Bool :=
  hasEntry "buy" slug ledger

/-- `hasResolution(slug)`. -/
def hasResolution (slug : String) (ledger : List LedgerEntry) : Bool :=
  hasEntry "resolution" slug ledger

/-! ## Strategy evaluator (`strategy.ts`; exit from the take-profit
variant, treated as canonical by the spec) -/

/-- `MarketOutcome` from `market-discovery.ts`. -/
structure MarketOutcome where
  tokenId : String
  outcome : UpDown
  price : ℚ
  deriving DecidableEq, Repr

/-- `ActiveMarket` from `market-discovery.ts`. -/
structure ActiveMarket where
  conditionId : String
  slug : String
  question : String
  startTime : ℚ
  endTime : ℚ
  secondsRemaining : ℚ
  minutesRemaining : ℚ
  outcomes : List MarketOutcome
  tickSize : String
  negRisk : Bool
  closed : Bool
  deriving DecidableEq, Repr

/-- `getLeadingOutcome(market)`: `reduce` keeping the strictly higher
price, ties resolving to the earlier element. -/
def getLeadingOutcome (market : ActiveMarket) : Option MarketOutcome :=
  match market.outcomes with
  | [] => none
  | h :: t =>
    some (t.foldl (fun best o => if o.price > best.price then o else best) h)

/-- `isInEntryWindow(market, minStart, minEnd)`. -/
def isInEntryWindow (market : ActiveMarket) (minStart minEnd : ℚ) : Bool :=
  market.minutesRemaining ≥ minStart ∧ market.minutesRemaining ≤ minEnd

/-- The signal variants (take-profit strategy file). -/
inductive Signal where
  | buy
  | sell
  | hold
  | wait
  deriving DecidableEq, Repr

/-- The reason template attached to a signal (each tag stands for the
string template at the corresponding return site in the source). -/
inductive SignalReason where
  | marketClosed
  | tooEarly
  | tooLate
  | noOutcomes
  | belowMinEntry
  | orderTooSmall
  | entrySignal
  | noHeldPrice
  | takeProfit
  | nearExpiryLock
  | holding
  deriving DecidableEq, Repr

/-- `TradeSignal`: optional fields model the TS optional properties. -/
structure TradeSignal where
  signal : Signal
  outcome : Option MarketOutcome
  reason : SignalReason
  suggestedSize : Option ℚ
  suggestedPrice : Option ℚ
  unrealizedGainPct : Option ℚ
  deriving DecidableEq, Repr

/-- A signal with only a tag and a reason. -/
def bareSignal (sig : Signal) (reason : SignalReason) : TradeSignal where
  signal := sig
  outcome := none
  reason := reason
  suggestedSize := none
  suggestedPrice := none
  unrealizedGainPct := none

/-- `evaluateEntry(market, config)`.  (`Math.floor(a / b)` is
`Int.floor`; at a zero leader price JS would divide to Infinity while
`ℚ` division yields 0 — both end in the same WAIT branch for size 0,
and no claim touches a zero price.) -/
def evaluateEntry (market : ActiveMarket) (config : TraderConfig) :
    TradeSignal :=
  if market.closed then
    bareSignal .wait .marketClosed
  else if ¬ isInEntryWindow market config.entryWindowMinStart
            config.entryWindowMinEnd then
    (if market.minutesRemaining > config.entryWindowMinEnd then
      bareSignal .wait .tooEarly
    else
      bareSignal .wait .tooLate)
  else
    match getLeadingOutcome market with
    | none => bareSignal .wait .noOutcomes
    | some leader =>
      if leader.price < config.minEntryPrice then
        bareSignal .wait .belowMinEntry
      else
        let pricePerShare := leader.price
        let maxShares : ℤ := ⌊config.maxOrderSize / pricePerShare⌋
        if maxShares ≤ 0 then
          bareSignal .wait .orderTooSmall
        else
          { signal := .buy
            outcome := some leader
            reason := .entrySignal
            suggestedSize := some (maxShares : ℚ)
            suggestedPrice := some pricePerShare
            unrealizedGainPct := none }

/-- `evaluateExit(market, position, config)` — the take-profit variant
integrated with close accounting. -/
def evaluateExit (market : ActiveMarket) (position : PositionRecord)
    (config : TraderConfig) : TradeSignal :=
  match market.outcomes.find? (fun o => o.tokenId = position.tokenId) with
  | none => bareSignal .hold .noHeldPrice
  | some held =>
    let currentValue := held.price * position.size
    let unrealizedGainPct :=
      (currentValue - position.costBasis) / position.costBasis
    if unrealizedGainPct ≥ config.takeProfitPct then
      { signal := .sell
        outcome := some held
        reason := .takeProfit
        suggestedSize := some position.size
        suggestedPrice := some held.price
        unrealizedGainPct := some unrealizedGainPct }
    else if market.minutesRemaining < 1 ∧ unrealizedGainPct > 1/10 then
      { signal := .sell
        outcome := some held
        reason := .nearExpiryLock
        suggestedSize := some position.size
        suggestedPrice := some held.price
        unrealizedGainPct := some unrealizedGainPct }
    else
      { bareSignal .hold .holding with
        unrealizedGainPct := some unrealizedGainPct }

/-- `evaluateMarket(market, config)`: snapshot the guardrails, route to
exit when a position for the market's condition id exists, else to
entry.  Returns the mutated guardrail state with the signal. -/
def evaluateMarket (today : String) (now : ℚ) (market : ActiveMarket)
    (config : TraderConfig) (s0 : GuardrailState) :
    GuardrailState × TradeSignal :=
  let (s, snap) := getGuardrailState today now s0
  match snap.2.find? (fun p => p.conditionId = market.conditionId) with
  | some existingPosition =>
    (s, evaluateExit market existingPosition config)
  | none => (s, evaluateEntry market config)

/-! ## Execution orchestrator (`executor.ts`, the version with the
slug-level idempotency gate before the guardrail check) -/

/-- Order side. -/
inductive Side where
  | buyside
  | sellside
  deriving DecidableEq, Repr

/-- `toTickSize(raw)`: normalize to the allowed set, default "0.01". -/
def toTickSize (raw : String) : String :=
  if raw = "0.1" ∨ raw = "0.01" ∨ raw = "0.001" ∨ raw = "0.0001" then raw
  else "0.01"

/-- The argument bundle of one `createAndPostOrder` call. -/
structure OrderRequest where
  tokenID : String
  price : ℚ
  size : ℚ
  side : Side
  tickSize : String
  negRisk : Bool
  deriving DecidableEq, Repr

/-- The order client's response (`orderID` / `status` may be absent). -/
structure OrderResponse where
  orderID : Option String
  status : Option String
  deriving DecidableEq, Repr

/-- The message of an `ExecutionResult` (tags for the source's message
template strings). -/
inductive ExecMessage where
  | invalidSignal
  | alreadyBought (slug : String)
  | guardrailBlocked (reason : Option DenyReason)
  | dryRunBuy
  | clientNotInitialized
  | orderNotFilled (status orderId : String)
  | buyFailed (err : String)
  | buyFilled (orderId : String)
  deriving DecidableEq, Repr

/-- `ExecutionResult` from `executor.ts`. -/
structure ExecutionResult where
  success : Bool
  orderId : Option String
  message : ExecMessage
  dryRun : Bool
  deriving DecidableEq, Repr

/-- The world visible after a call to `executeBuy`: its return value,
the ledger, the guardrail state, and every order submission the call
made against the external client. -/
structure ExecOutcome where
  result : ExecutionResult
  ledger : List LedgerEntry
  guard : GuardrailState
  orders : List OrderRequest
  deriving DecidableEq, Repr

/-- JS truthiness of an optional number (`undefined` and `0` falsy). -/
def qFalsy (x : Option ℚ) : Bool :=
  match x with
  | none => true
  | some v => v = 0

/-- `executeBuy(signal, market, config)` — the variant with the
restart-safe ledger gate.  `clientReady` models `isClientReady()` and
`postResult` models what `createAndPostOrder` would do (throw or
respond). -/
def executeBuy (today timeStr : String) (now : ℚ) (clientReady : Bool)
    (postResult : Except String OrderResponse) (signal : TradeSignal)
    (market : ActiveMarket) (config : TraderConfig)
    (ledger : List LedgerEntry) (guard : GuardrailState) : ExecOutcome :=
  if signal.outcome.isNone ∨ qFalsy signal.suggestedSize
      ∨ qFalsy signal.suggestedPrice then
    { result := ⟨false, none, .invalidSignal, false⟩
      ledger := ledger, guard := guard, orders := [] }
  else
    match signal.outcome, signal.suggestedSize, signal.suggestedPrice with
    | some outc, some sz, some pr =>
      let orderCost := sz * pr
      if hasBoughtSlug market.slug ledger then
        { result := ⟨false, none, .alreadyBought market.slug, false⟩
          ledger := ledger, guard := guard, orders := [] }
      else
        let (g1, check) := checkPreTrade today now config orderCost guard
        if ¬ check.allowed then
          { result := ⟨false, none, .guardrailBlocked check.reason, false⟩
            ledger := ledger, guard := g1, orders := [] }
        else if config.dryRun then
          let pos : PositionRecord :=
            { conditionId := market.conditionId, tokenId := outc.tokenId,
              outcome := outc.outcome, entryPrice := pr, size := sz,
              costBasis := orderCost, entryTime := now,
              marketSlug := market.slug, negRisk := market.negRisk }
          { result := ⟨true, none, .dryRunBuy, true⟩
            ledger := ledger ++
              [.buy timeStr market.slug outc.outcome pr sz orderCost "dry-run"]
            guard := recordTrade now pos g1
            orders := [] }
        else if ¬ clientReady then
          { result := ⟨false, none, .clientNotInitialized, false⟩
            ledger := ledger, guard := g1, orders := [] }
        else
          let req : OrderRequest :=
            { tokenID := outc.tokenId, price := pr, size := sz,
              side := .buyside, tickSize := toTickSize market.tickSize,
              negRisk := market.negRisk }
          match postResult with
          | .error e =>
            { result := ⟨false, none, .buyFailed e, false⟩
              ledger := ledger, guard := g1, orders := [req] }
          | .ok resp =>
            let orderId := jsOr resp.orderID "unknown"
            let status := jsOr resp.status "unknown"
            if status = "matched" ∨ status = "live" then
              let pos : PositionRecord :=
                { conditionId := market.conditionId,
                  tokenId := outc.tokenId, outcome := outc.outcome,
                  entryPrice := pr, size := sz, costBasis := orderCost,
                  entryTime := now, marketSlug := market.slug,
                  negRisk := market.negRisk }
              { result := ⟨true, some orderId, .buyFilled orderId, false⟩
                ledger := ledger ++
                  [.buy timeStr market.slug outc.outcome pr sz orderCost
                    orderId]
                guard := recordTrade now pos g1
                orders := [req] }
            else
              { result := ⟨false, none, .orderNotFilled status orderId,
                  false⟩
                ledger := ledger, guard := g1, orders := [req] }
    | _, _, _ =>
      { result := ⟨false, none, .invalidSignal, false⟩
        ledger := ledger, guard := guard, orders := [] }

/-! ## Redemption sweeper (`redeemer.ts`) -/

/-- Gamma API market metadata after the tolerant decoding the sweeper
performs in place: `conditionId` is already the `conditionId ||
condition_id` fallback with `""` standing for the JS-falsy absence;
`outcomePrices = none` models a `getWinner` parse failure and
`clobTokenIds = none` a token-id parse failure. -/
structure GammaMarket where
  conditionId : String
  outcomes : List String
  outcomePrices : Option (List ℚ)
  clobTokenIds : Option (List String)
  deriving DecidableEq, Repr

/-- The inner index loop of `getWinner`: first index whose price parses
to exactly 1 decides, labelled by whether the outcome text contains
"up" (lower-cased). -/
def getWinnerAux (outcomes : List String) : ℕ → List ℚ → Option UpDown
  | _, [] => none
  | i, p :: ps =>
    if p = 1 then
      some (if strContains (outcomes.getD i "").toLower "up" then .up
            else .down)
    else getWinnerAux outcomes (i + 1) ps

/-- `getWinner(market)`: decode the winning outcome of a resolved
market, `none` when no price is exactly 1 or parsing failed. -/
def getWinner (m : GammaMarket) : Option UpDown :=
  match m.outcomePrices with
  | none => none
  | some prices => getWinnerAux m.outcomes 0 prices

/-- What a single redemption attempt comes to after `factory.proxy` and
`waitForTx`: a receipt with status 1, a receipt with status 0, no
receipt obtainable, or a thrown error with its computed reason
string. -/
inductive RedeemOutcome where
  | receiptSuccess
  | receiptReverted
  | receiptNone
  | submitError (reason : String)
  deriving DecidableEq, Repr

/-- The external world one sweep runs against: the signer's native-gas
balance (`none` models an RPC error while reading it), per-slot Gamma
metadata (`none` models fetch failure / not found / missing fields),
per-slot per-token CTF balances (`none` models a `balanceOf` error),
and the fate of each redemption submission. -/
structure SweepOracle where
  nativeBalance : Option ℚ
  gamma : ℕ → Option GammaMarket
  balanceOf : ℕ → String → Option ℚ
  redeem : ℕ → String → RedeemOutcome

/-- State threaded through a sweep: the ledger, the redemption calls
submitted so far (window slug, token id), and `redeemedCount`. -/
structure SweepState where
  ledger : List LedgerEntry
  attempts : List (String × String)
  redeemedCount : ℕ
  deriving DecidableEq, Repr

/-- The slug `btc-updown-15m-${slotStart}` for loop index `i`. -/
def slugFor (currentSlotStart : ℤ) (i : ℕ) : String :=
  "btc-updown-15m-" ++ toString (currentSlotStart - i * 900)

/-- One token of the inner redemption loop.  Returns the new state and
whether the sweep must abort (the detected insufficient-gas error). -/
def processToken (o : SweepOracle) (i : ℕ) (slug : String)
    (tok : String) (st : SweepState) : SweepState × Bool :=
  match o.balanceOf i tok with
  | none => (st, false)
  | some bal =>
    if bal > 0 then
      let st1 := { st with attempts := st.attempts ++ [(slug, tok)] }
      match o.redeem i tok with
      | .receiptSuccess =>
        ({ st1 with redeemedCount := st1.redeemedCount + 1 }, false)
      | .receiptReverted => (st1, false)
      | .receiptNone =>
        ({ st1 with redeemedCount := st1.redeemedCount + 1 }, false)
      | .submitError reason =>
        if strContains reason "insufficient funds" then (st1, true)
        else (st1, false)
    else (st, false)

/-- The token loop of one slot; an abort returns immediately. -/
def processTokens (o : SweepOracle) (i : ℕ) (slug : String) :
    List String → SweepState → SweepState × Bool
  | [], st => (st, false)
  | t :: ts, st =>
    let r := processToken o i slug t st
    if r.2 then (r.1, true) else processTokens o i slug ts r.1

/-- The resolution-logging step of one slot: `const winner =
getWinner(market); if (winner && !hasResolution(slug))
logResolution(slug, winner)`. -/
def logSlotResolution (m : GammaMarket) (slug timeStr : String)
    (st : SweepState) : SweepState :=
  match getWinner m with
  | some winner =>
    if ¬ hasResolution slug st.ledger then
      { st with ledger := st.ledger ++ [.resolution timeStr slug winner] }
    else st
  | none => st

/-- One slot of the sweep: fetch metadata, skip on failure or falsy
condition id, log the resolution when decodable and not yet recorded,
then run the token loop. -/
def processSlot (o : SweepOracle) (currentSlotStart : ℤ)
    (timeStr : String) (i : ℕ) (st : SweepState) : SweepState × Bool :=
  match o.gamma i with
  | none => (st, false)
  | some m =>
    if m.conditionId = "" then (st, false)
    else
      match m.clobTokenIds with
      | none =>
        (logSlotResolution m (slugFor currentSlotStart i) timeStr st, false)
      | some toks =>
        processTokens o i (slugFor currentSlotStart i) toks
          (logSlotResolution m (slugFor currentSlotStart i) timeStr st)

/-- The slot loop over indices 1..20; an aborted slot ends the sweep. -/
def processSlots (o : SweepOracle) (currentSlotStart : ℤ)
    (timeStr : String) : List ℕ → SweepState → SweepState
  | [], st => st
  | i :: is, st =>
    let r := processSlot o currentSlotStart timeStr i st
    if r.2 then r.1 else processSlots o currentSlotStart timeStr is r.1

/-- `runRedemptionSweep`: gas pre-check (abort the whole sweep below
0.001 MATIC or on an RPC error), then scan the last 20 market slots. -/
def runRedemptionSweep (o : SweepOracle) (nowSec : ℕ) (timeStr : String)
    (ledger : List LedgerEntry) : SweepState :=
  let st0 : SweepState := ⟨ledger, [], 0⟩
  match o.nativeBalance with
  | none => st0
  | some bal =>
    if bal < 1/1000 then st0
    else
      let currentSlotStart : ℤ := (nowSec / 900 : ℕ) * 900
      processSlots o currentSlotStart timeStr
        ((List.range 20).map (fun j => j + 1)) st0

/-- One scheduled firing of the sweep timer. -/
structure SweepRun where
  oracle : SweepOracle
  nowSec : ℕ
  timeStr : String

/-- Sequential sweep invocations, each starting from the ledger the
previous one left behind. -/
def runSweeps : List SweepRun → List LedgerEntry → List LedgerEntry
  | [], ledger => ledger
  | r :: rs, ledger =>
    runSweeps rs (runRedemptionSweep r.oracle r.nowSec r.timeStr ledger).ledger

/-- The number of resolution entries a ledger holds for a slug. -/
def resolutionCount (slug : String) (ledger : List LedgerEntry) : ℕ :=
  (ledger.filter (fun e => entryType e = "resolution" ∧ entrySlug e = slug)).length

/-! ## Auxiliary definitions for the claims -/

/-- Sum of the cost bases of the positions held in the map. -/
def exposureSum (m : PosMap) : ℚ :=
  (m.map (fun kv => kv.2.costBasis)).sum

/-- A guardrail operation of the tick-driven path. -/
inductive Op where
  | trade (now : ℚ) (p : PositionRecord)
  | close (conditionId : String) (proceeds : ℚ)

/-- Run a sequence of guardrail operations. -/
def runOps : List Op → GuardrailState → GuardrailState
  | [], s => s
  | .trade now p :: ops, s => runOps ops (recordTrade now p s)
  | .close k proceeds :: ops, s => runOps ops (recordClose k proceeds s)

/-- No `recordTrade` in the sequence inserts under a key that is
already present (the §9 overwrite ambiguity never arises). -/
def noOverwriteB : GuardrailState → List Op → Bool
  | _, [] => true
  | s, .trade now p :: ops =>
    (mapGet s.openPositions p.conditionId).isNone
      && noOverwriteB (recordTrade now p s) ops
  | s, .close k proceeds :: ops => noOverwriteB (recordClose k proceeds s) ops

/-! ## Helper lemmas -/

theorem killswitch_maybeResetDaily (today : String) (s : GuardrailState) :
    (maybeResetDaily today s).killswitch = s.killswitch := by
  unfold maybeResetDaily; split <;> rfl

theorem killswitch_pruneHourlyTrades (now : ℚ) (s : GuardrailState) :
    (pruneHourlyTrades now s).killswitch = s.killswitch := rfl

theorem mapGet_mapSet_self (m : PosMap) (k : String) (v : PositionRecord) :
    mapGet (mapSet m k v) k = some v := by
  induction m with
  | nil => simp [mapGet, mapSet]
  | cons hd tl ih =>
    obtain ⟨k1, v1⟩ := hd
    by_cases h : k1 = k <;> simp [mapGet, mapSet, h, ih]

theorem mapDelete_mapSet_absent (m : PosMap) (k : String)
    (v : PositionRecord) (h : mapGet m k = none) :
    mapDelete (mapSet m k v) k = m := by
  induction m with
  | nil => simp [mapGet, mapSet, mapDelete]
  | cons hd tl ih =>
    obtain ⟨k1, v1⟩ := hd
    by_cases hk : k1 = k
    · simp [mapGet, hk] at h
    · simp [mapGet, hk] at h
      simp [mapSet, mapDelete, hk, ih h]

theorem exposureSum_mapSet_absent (m : PosMap) (k : String)
    (v : PositionRecord) (h : mapGet m k = none) :
    exposureSum (mapSet m k v) = exposureSum m + v.costBasis := by
  induction m with
  | nil => simp [mapSet, exposureSum]
  | cons hd tl ih =>
    obtain ⟨k1, v1⟩ := hd
    by_cases hk : k1 = k
    · simp [mapGet, hk] at h
    · simp [mapGet, hk] at h
      simp [mapSet, exposureSum, hk, List.sum_cons] at ih ⊢
      rw [ih h]; ring

theorem exposureSum_mapDelete (m : PosMap) (k : String)
    (pos : PositionRecord) (h : mapGet m k = some pos) :
    exposureSum (mapDelete m k) = exposureSum m - pos.costBasis := by
  induction m with
  | nil => simp [mapGet] at h
  | cons hd tl ih =>
    obtain ⟨k1, v1⟩ := hd
    by_cases hk : k1 = k
    · simp [mapGet, hk] at h
      simp [mapDelete, hk, exposureSum, h]
    · simp [mapGet, hk] at h
      simp [mapDelete, exposureSum, hk, List.sum_cons] at ih ⊢
      rw [ih h]; ring

/-- A concrete configuration (the `DEFAULT_CONFIG` values) used by the
closed instantiations below. -/
def sampleConfig : TraderConfig where
  enabled := false
  dryRun := true
  maxOrderSize := 10
  maxPositionSize := 50
  maxDailyLoss := 25
  maxTradesPerHour := 10
  minEntryPrice := 3/5
  entryWindowMinStart := 5
  entryWindowMinEnd := 10
  takeProfitPct := 4/5
  tickIntervalSec := 30

/-- A concrete position used by the closed instantiations below. -/
def samplePos : PositionRecord where
  conditionId := "cond-a"
  tokenId := "tok-up"
  outcome := .up
  entryPrice := 1/2
  size := 10
  costBasis := 5
  entryTime := 0
  marketSlug := "btc-updown-15m-900"
  negRisk := false

/-! ## Claims -/

/-- C2: with the killswitch set, `checkPreTrade` denies with the
killswitch reason whatever the rest of the state, the configuration and
the order cost are; the killswitch check short-circuits every other
check. -/
theorem checkPreTrade_killswitch_denies (today : String) (now : ℚ)
    (config : TraderConfig) (orderCost : ℚ) (s : GuardrailState)
    (h : s.killswitch = true) :
    (checkPreTrade today now config orderCost s).2 =
      ⟨false, some .killswitch⟩ := by
  have h1 : (pruneHourlyTrades now (maybeResetDaily today s)).killswitch
      = true := by
    rw [killswitch_pruneHourlyTrades, killswitch_maybeResetDaily, h]
  simp [checkPreTrade, h1]

/-- C2 witness. -/
theorem checkPreTrade_killswitch_denies_inst :
    ({ createFreshState "2026-01-01" with killswitch := true }
        : GuardrailState).killswitch = true
    ∧ (checkPreTrade "2026-01-02" 0 sampleConfig 3
        { createFreshState "2026-01-01" with killswitch := true }).2 =
      ⟨false, some .killswitch⟩ :=
  ⟨rfl, checkPreTrade_killswitch_denies "2026-01-02" 0 sampleConfig 3
    { createFreshState "2026-01-01" with killswitch := true } rfl⟩

/-- C4: once the killswitch is set, the daily rollover inside
`checkPreTrade` and `getGuardrailState`, the pruning, `recordTrade` and
`recordClose` all leave it set; `activateKillswitch` sets it and only
`resetKillswitch` clears it. -/
theorem killswitch_only_reset_clears (today : String) (now : ℚ)
    (config : TraderConfig) (orderCost : ℚ) (p : PositionRecord)
    (k reason : String) (proceeds : ℚ) (s : GuardrailState)
    (h : s.killswitch = true) :
    (maybeResetDaily today s).killswitch = true
    ∧ (pruneHourlyTrades now s).killswitch = true
    ∧ ((checkPreTrade today now config orderCost s).1).killswitch = true
    ∧ ((getGuardrailState today now s).1).killswitch = true
    ∧ ((getGuardrailState today now s).2.1).killswitch = true
    ∧ (recordTrade now p s).killswitch = true
    ∧ (recordClose k proceeds s).killswitch = true
    ∧ (activateKillswitch reason s).killswitch = true
    ∧ (resetKillswitch s).killswitch = false := by
  have h1 : (pruneHourlyTrades now (maybeResetDaily today s)).killswitch
      = true := by
    rw [killswitch_pruneHourlyTrades, killswitch_maybeResetDaily, h]
  refine ⟨?_, ?_, ?_, ?_, ?_, ?_, ?_, rfl, rfl⟩
  · rw [killswitch_maybeResetDaily, h]
  · rw [killswitch_pruneHourlyTrades, h]
  · simp [checkPreTrade, h1]
  · simp only [getGuardrailState]; exact h1
  · simp only [getGuardrailState]; exact h1
  · simpa [recordTrade] using h
  · unfold recordClose
    cases hget : mapGet s.openPositions k with
    | none => simpa using h
    | some pos => simp only; split_ifs <;> simp [h]

/-- C4 witness. -/
theorem killswitch_only_reset_clears_inst :
    ({ createFreshState "2026-01-01" with killswitch := true }
        : GuardrailState).killswitch = true
    ∧ ((checkPreTrade "2026-01-02" 7200000 sampleConfig 3
          { createFreshState "2026-01-01" with
            killswitch := true }).1).killswitch = true
    ∧ (recordClose "cond-a" 2
        { createFreshState "2026-01-01" with
          killswitch := true }).killswitch = true :=
  ⟨rfl,
    (killswitch_only_reset_clears "2026-01-02" 7200000 sampleConfig 3
      samplePos "cond-a" "manual" 2
      { createFreshState "2026-01-01" with killswitch := true }
      rfl).2.2.1,
    (killswitch_only_reset_clears "2026-01-02" 7200000 sampleConfig 3
      samplePos "cond-a" "manual" 2
      { createFreshState "2026-01-01" with killswitch := true }
      rfl).2.2.2.2.2.2.1⟩

/-- C10: `recordClose` under a key with no open position is a complete
no-op for every proceeds value: the whole state, including the
auto-killswitch evaluation, is untouched. -/
theorem recordClose_absent_noop (s : GuardrailState) (k : String)
    (proceeds : ℚ) (h : mapGet s.openPositions k = none) :
    recordClose k proceeds s = s := by
  simp [recordClose, h]

/-- C10 witness. -/
theorem recordClose_absent_noop_inst :
    mapGet (createFreshState "2026-01-01").openPositions "cond-a" = none
    ∧ recordClose "cond-a" (-100) (createFreshState "2026-01-01") =
      createFreshState "2026-01-01" :=
  ⟨rfl, recordClose_absent_noop (createFreshState "2026-01-01") "cond-a"
    (-100) rfl⟩

/-- C7: a `recordTrade` immediately closed at proceeds equal to the
cost basis is a round trip: daily P&L and total exposure are restored
and no position remains under the key. -/
theorem recordTrade_recordClose_round_trip (s : GuardrailState)
    (p : PositionRecord) (now : ℚ)
    (h : mapGet s.openPositions p.conditionId = none) :
    ((recordClose p.conditionId p.costBasis (recordTrade now p s)).dailyPnl
        = s.dailyPnl)
    ∧ ((recordClose p.conditionId p.costBasis
          (recordTrade now p s)).totalExposure = s.totalExposure)
    ∧ mapGet (recordClose p.conditionId p.costBasis
        (recordTrade now p s)).openPositions p.conditionId = none := by
  have hget : mapGet (recordTrade now p s).openPositions p.conditionId
      = some p := by
    simp [recordTrade, mapGet_mapSet_self]
  have hdel : mapDelete (mapSet s.openPositions p.conditionId p)
      p.conditionId = s.openPositions := mapDelete_mapSet_absent _ _ _ h
  unfold recordClose
  rw [hget]
  simp only [recordTrade, sub_self, add_zero]
  split_ifs <;> simp [hdel, h]

/-- C7 witness. -/
theorem recordTrade_recordClose_round_trip_inst :
    mapGet (createFreshState "2026-01-01").openPositions
      samplePos.conditionId = none
    ∧ (recordClose samplePos.conditionId samplePos.costBasis
        (recordTrade 0 samplePos (createFreshState "2026-01-01"))).dailyPnl
      = (createFreshState "2026-01-01").dailyPnl :=
  ⟨rfl, (recordTrade_recordClose_round_trip (createFreshState "2026-01-01")
    samplePos 0 rfl).1⟩

/-- Positions with a shared condition id and differing cost bases,
exhibiting the `Map.set` overwrite of §9. -/
def overwritePosA : PositionRecord where
  conditionId := "cond-k"
  tokenId := "tok-1"
  outcome := .up
  entryPrice := 1/2
  size := 10
  costBasis := 5
  entryTime := 0
  marketSlug := "btc-updown-15m-900"
  negRisk := false

/-- Second insert under the same key with a smaller cost basis. -/
def overwritePosB : PositionRecord where
  conditionId := "cond-k"
  tokenId := "tok-2"
  outcome := .down
  entryPrice := 3/10
  size := 10
  costBasis := 3
  entryTime := 0
  marketSlug := "btc-updown-15m-900"
  negRisk := false

/-- C3 counterexample: from a fresh state, two `recordTrade` calls under
the same window key leave `totalExposure = 8` but only the second
position (cost basis `3`) in the map — the exposure invariant fails on
a sequence that overwrites a key. -/
theorem exposure_invariant_fails_on_overwrite :
    (runOps [.trade 0 overwritePosA, .trade 0 overwritePosB]
        (createFreshState "2026-01-01")).totalExposure ≠
      exposureSum (runOps [.trade 0 overwritePosA, .trade 0 overwritePosB]
        (createFreshState "2026-01-01")).openPositions := by
  norm_num [runOps, recordTrade, createFreshState, mapSet, exposureSum,
    overwritePosA, overwritePosB]

/-- C3 (amended): along any finite `recordTrade`/`recordClose` sequence
from a fresh state in which no `recordTrade` inserts under a key that is
already open, `totalExposure` equals the sum of the cost bases of the
open positions. -/
theorem exposure_invariant_no_overwrite (ops : List Op) (today : String)
    (h : noOverwriteB (createFreshState today) ops = true) :
    (runOps ops (createFreshState today)).totalExposure =
      exposureSum (runOps ops (createFreshState today)).openPositions := by
  suffices H : ∀ (ops : List Op) (s : GuardrailState),
      s.totalExposure = exposureSum s.openPositions →
      noOverwriteB s ops = true →
      (runOps ops s).totalExposure = exposureSum (runOps ops s).openPositions by
    exact H ops (createFreshState today) (by simp [createFreshState, exposureSum]) h
  intro ops
  induction ops with
  | nil => intro s hs _; exact hs
  | cons op rest ih =>
    intro s hs hno
    cases op with
    | trade now p =>
      simp only [noOverwriteB, Bool.and_eq_true, Option.isNone_iff_eq_none]
        at hno
      refine ih (recordTrade now p s) ?_ hno.2
      simp only [recordTrade]
      rw [exposureSum_mapSet_absent _ _ _ hno.1, hs]
    | close k proceeds =>
      simp only [noOverwriteB] at hno
      refine ih (recordClose k proceeds s) ?_ hno
      unfold recordClose
      cases hget : mapGet s.openPositions k with
      | none => exact hs
      | some pos =>
        simp only
        split_ifs <;>
          · simp only
            rw [exposureSum_mapDelete _ _ _ hget, hs]

/-- C3 (amended) witness: an overwrite-free open/close/open sequence. -/
theorem exposure_invariant_no_overwrite_inst :
    noOverwriteB (createFreshState "2026-01-01")
      [.trade 0 overwritePosA, .close "cond-k" 6, .trade 1 overwritePosB]
      = true
    ∧ (runOps [.trade 0 overwritePosA, .close "cond-k" 6,
          .trade 1 overwritePosB]
        (createFreshState "2026-01-01")).totalExposure =
      exposureSum (runOps [.trade 0 overwritePosA, .close "cond-k" 6,
          .trade 1 overwritePosB]
        (createFreshState "2026-01-01")).openPositions := by
  have hno : noOverwriteB (createFreshState "2026-01-01")
      [.trade 0 overwritePosA, .close "cond-k" 6, .trade 1 overwritePosB]
      = true := by
    norm_num [noOverwriteB, recordTrade, recordClose, createFreshState,
      mapGet, mapSet, mapDelete, overwritePosA, overwritePosB]
  exact ⟨hno, exposure_invariant_no_overwrite
    [.trade 0 overwritePosA, .close "cond-k" 6, .trade 1 overwritePosB]
    "2026-01-01" hno⟩

/-- C5: with entry price 0.50, size 10, cost basis 5, the held outcome
live at 0.95 and take-profit fraction 0.80, exit evaluation computes an
unrealized gain of 0.90 and emits SELL at the held size and price. -/
theorem evaluateExit_take_profit (market : ActiveMarket)
    (position : PositionRecord) (config : TraderConfig)
    (held : MarketOutcome)
    (hfind : market.outcomes.find? (fun o => o.tokenId = position.tokenId)
      = some held)
    (hprice : held.price = 19/20) (_hentry : position.entryPrice = 1/2)
    (hsize : position.size = 10) (hcb : position.costBasis = 5)
    (htp : config.takeProfitPct = 4/5) :
    evaluateExit market position config =
      { signal := .sell
        outcome := some held
        reason := .takeProfit
        suggestedSize := some 10
        suggestedPrice := some (19/20)
        unrealizedGainPct := some (9/10) } := by
  unfold evaluateExit
  rw [hfind]
  simp only [hprice, hsize, hcb, htp]
  norm_num

/-- C5 witness. -/
theorem evaluateExit_take_profit_inst :
    ({ conditionId := "cond-a", slug := "btc-updown-15m-900",
       question := "q", startTime := 900, endTime := 1800,
       secondsRemaining := 300, minutesRemaining := 5,
       outcomes := [⟨"tok-up", .up, 19/20⟩, ⟨"tok-down", .down, 1/20⟩],
       tickSize := "0.01", negRisk := false, closed := false }
      : ActiveMarket).outcomes.find?
        (fun o => o.tokenId = samplePos.tokenId)
      = some ⟨"tok-up", .up, 19/20⟩
    ∧ evaluateExit
        { conditionId := "cond-a", slug := "btc-updown-15m-900",
          question := "q", startTime := 900, endTime := 1800,
          secondsRemaining := 300, minutesRemaining := 5,
          outcomes := [⟨"tok-up", .up, 19/20⟩, ⟨"tok-down", .down, 1/20⟩],
          tickSize := "0.01", negRisk := false, closed := false }
        samplePos sampleConfig =
      { signal := .sell
        outcome := some ⟨"tok-up", .up, 19/20⟩
        reason := .takeProfit
        suggestedSize := some 10
        suggestedPrice := some (19/20)
        unrealizedGainPct := some (9/10) } :=
  ⟨by simp [samplePos, List.find?],
    evaluateExit_take_profit _ samplePos sampleConfig ⟨"tok-up", .up, 19/20⟩
      (by simp [samplePos, List.find?]) rfl rfl rfl rfl rfl⟩

/-- C6: a non-closed market with outcomes Up at 0.62 and Down at 0.38
and 9.6 minutes remaining, under entry window [5,10], minimum entry
price 0.60 and max order cost 10, yields BUY on Up with size
floor(10/0.62) = 16 at price 0.62. -/
theorem evaluateEntry_buy_leader (market : ActiveMarket)
    (config : TraderConfig) (tUp tDown : String)
    (hclosed : market.closed = false)
    (hmin : market.minutesRemaining = 48/5)
    (houts : market.outcomes =
      [⟨tUp, .up, 31/50⟩, ⟨tDown, .down, 19/50⟩])
    (hws : config.entryWindowMinStart = 5)
    (hwe : config.entryWindowMinEnd = 10)
    (hmep : config.minEntryPrice = 3/5)
    (hmos : config.maxOrderSize = 10) :
    evaluateEntry market config =
      { signal := .buy
        outcome := some ⟨tUp, .up, 31/50⟩
        reason := .entrySignal
        suggestedSize := some 16
        suggestedPrice := some (31/50)
        unrealizedGainPct := none } := by
  have hwin : isInEntryWindow market config.entryWindowMinStart
      config.entryWindowMinEnd = true := by
    simp only [isInEntryWindow, hmin, hws, hwe]
    norm_num
  have hlead : getLeadingOutcome market = some ⟨tUp, .up, 31/50⟩ := by
    simp only [getLeadingOutcome, houts, List.foldl]
    norm_num
  have hfloor : (⌊config.maxOrderSize / (31/50 : ℚ)⌋ : ℤ) = 16 := by
    rw [hmos, Int.floor_eq_iff]; norm_num
  unfold evaluateEntry
  rw [hclosed, hwin, hlead]
  simp only [hmep, hfloor]
  norm_num

/-- C6 witness. -/
theorem evaluateEntry_buy_leader_inst :
    ({ conditionId := "cond-a", slug := "btc-updown-15m-900",
       question := "q", startTime := 900, endTime := 1800,
       secondsRemaining := 576, minutesRemaining := 48/5,
       outcomes := [⟨"tok-up", .up, 31/50⟩, ⟨"tok-down", .down, 19/50⟩],
       tickSize := "0.01", negRisk := false, closed := false }
      : ActiveMarket).closed = false
    ∧ evaluateEntry
        { conditionId := "cond-a", slug := "btc-updown-15m-900",
          question := "q", startTime := 900, endTime := 1800,
          secondsRemaining := 576, minutesRemaining := 48/5,
          outcomes := [⟨"tok-up", .up, 31/50⟩, ⟨"tok-down", .down, 19/50⟩],
          tickSize := "0.01", negRisk := false, closed := false }
        sampleConfig =
      { signal := .buy
        outcome := some ⟨"tok-up", .up, 31/50⟩
        reason := .entrySignal
        suggestedSize := some 16
        suggestedPrice := some (31/50)
        unrealizedGainPct := none } :=
  ⟨rfl, evaluateEntry_buy_leader _ sampleConfig "tok-up" "tok-down"
    rfl rfl rfl rfl rfl rfl rfl⟩

/-- C1: with a well-formed BUY signal and a ledger (however obtained,
including one replayed from disk) that already holds a buy fact for the
market's window slug, `executeBuy` fails with the already-bought
message and has no side effects: no order is submitted, the guardrail
state is untouched (`recordTrade` is not reached, nor is the state
mutation inside `checkPreTrade`), and nothing is appended to the
ledger. -/
theorem executeBuy_idempotent_on_slug (today timeStr : String) (now : ℚ)
    (clientReady : Bool) (postResult : Except String OrderResponse)
    (signal : TradeSignal) (market : ActiveMarket) (config : TraderConfig)
    (ledger : List LedgerEntry) (guard : GuardrailState)
    (outc : MarketOutcome) (sz pr : ℚ)
    (houtc : signal.outcome = some outc)
    (hsz : signal.suggestedSize = some sz) (hsznz : sz ≠ 0)
    (hpr : signal.suggestedPrice = some pr) (hprnz : pr ≠ 0)
    (hbought : hasBoughtSlug market.slug ledger = true) :
    (executeBuy today timeStr now clientReady postResult signal market
        config ledger guard).result.success = false
    ∧ (executeBuy today timeStr now clientReady postResult signal market
        config ledger guard).result.message =
      .alreadyBought market.slug
    ∧ (executeBuy today timeStr now clientReady postResult signal market
        config ledger guard).ledger = ledger
    ∧ (executeBuy today timeStr now clientReady postResult signal market
        config ledger guard).guard = guard
    ∧ (executeBuy today timeStr now clientReady postResult signal market
        config ledger guard).orders = [] := by
  have hrun : executeBuy today timeStr now clientReady postResult signal
      market config ledger guard =
      { result := ⟨false, none, .alreadyBought market.slug, false⟩
        ledger := ledger, guard := guard, orders := [] } := by
    unfold executeBuy
    rw [houtc, hsz, hpr]
    simp [qFalsy, hsznz, hprnz, hbought]
  rw [hrun]
  exact ⟨rfl, rfl, rfl, rfl, rfl⟩

/-- A buy signal used by closed instantiations. -/
def sampleBuySignal : TradeSignal where
  signal := .buy
  outcome := some ⟨"tok-up", .up, 31/50⟩
  reason := .entrySignal
  suggestedSize := some 16
  suggestedPrice := some (31/50)
  unrealizedGainPct := none

/-- A market used by closed instantiations. -/
def sampleMarket : ActiveMarket where
  conditionId := "cond-a"
  slug := "btc-updown-15m-900"
  question := "q"
  startTime := 900
  endTime := 1800
  secondsRemaining := 576
  minutesRemaining := 48/5
  outcomes := [⟨"tok-up", .up, 31/50⟩, ⟨"tok-down", .down, 19/50⟩]
  tickSize := "0.01"
  negRisk := false
  closed := false

/-- A ledger holding a prior buy fact for the sample market's slug, as
it would be replayed from disk after a restart. -/
def sampleLedger : List LedgerEntry :=
  [.buy "2026-01-01T00:10:00Z" "btc-updown-15m-900" .up (31/50) 16
    (248/25) "order-1"]

/-- C1 witness. -/
theorem executeBuy_idempotent_on_slug_inst :
    hasBoughtSlug sampleMarket.slug sampleLedger = true
    ∧ (executeBuy "2026-01-01" "2026-01-01T00:11:00Z" 0 true
        (.ok ⟨some "order-2", some "matched"⟩) sampleBuySignal
        sampleMarket sampleConfig sampleLedger
        (createFreshState "2026-01-01")).result.success = false
    ∧ (executeBuy "2026-01-01" "2026-01-01T00:11:00Z" 0 true
        (.ok ⟨some "order-2", some "matched"⟩) sampleBuySignal
        sampleMarket sampleConfig sampleLedger
        (createFreshState "2026-01-01")).ledger = sampleLedger
    ∧ (executeBuy "2026-01-01" "2026-01-01T00:11:00Z" 0 true
        (.ok ⟨some "order-2", some "matched"⟩) sampleBuySignal
        sampleMarket sampleConfig sampleLedger
        (createFreshState "2026-01-01")).orders = [] := by
  have hb : hasBoughtSlug sampleMarket.slug sampleLedger = true := by
    simp [hasBoughtSlug, hasEntry, sampleMarket, sampleLedger, entryType,
      entrySlug]
  have h := executeBuy_idempotent_on_slug "2026-01-01"
    "2026-01-01T00:11:00Z" 0 true (.ok ⟨some "order-2", some "matched"⟩)
    sampleBuySignal sampleMarket sampleConfig sampleLedger
    (createFreshState "2026-01-01") ⟨"tok-up", .up, 31/50⟩ 16 (31/50)
    rfl rfl (by norm_num) rfl (by norm_num) hb
  exact ⟨hb, h.1, h.2.2.1, h.2.2.2.2⟩


/-! ## Sweep helper lemmas -/

/-- What one slot does to the ledger, in isolation: append the slot's
resolution fact exactly when metadata is available with a truthy
condition id, the winner is decodable, and the fact is not yet
recorded. -/
def slotResolutionLedger (o : SweepOracle) (cs : ℤ) (t : String) (i : ℕ)
    (L : List LedgerEntry) : List LedgerEntry :=
  match o.gamma i with
  | none => L
  | some m =>
    if m.conditionId = "" then L
    else
      match getWinner m with
      | some w =>
        if ¬ hasResolution (slugFor cs i) L then
          L ++ [.resolution t (slugFor cs i) w]
        else L
      | none => L

theorem ledger_processToken (o : SweepOracle) (i : ℕ) (slug tok : String)
    (st : SweepState) :
    (processToken o i slug tok st).1.ledger = st.ledger := by
  unfold processToken
  repeat' split
  all_goals rfl

theorem ledger_processTokens (o : SweepOracle) (i : ℕ) (slug : String)
    (toks : List String) : ∀ st : SweepState,
    (processTokens o i slug toks st).1.ledger = st.ledger := by
  induction toks with
  | nil => intro st; rfl
  | cons tok ts ih =>
    intro st
    simp only [processTokens]
    split_ifs
    · exact ledger_processToken o i slug tok st
    · rw [ih, ledger_processToken]

theorem ledger_logSlotResolution (m : GammaMarket) (slug t : String)
    (st : SweepState) :
    (logSlotResolution m slug t st).ledger =
      match getWinner m with
      | some w =>
        if ¬ hasResolution slug st.ledger then
          st.ledger ++ [.resolution t slug w]
        else st.ledger
      | none => st.ledger := by
  unfold logSlotResolution
  repeat' split
  all_goals rfl

theorem processSlot_fst_ledger (o : SweepOracle) (cs : ℤ) (t : String)
    (i : ℕ) (st : SweepState) :
    (processSlot o cs t i st).1.ledger =
      slotResolutionLedger o cs t i st.ledger := by
  unfold processSlot slotResolutionLedger
  repeat' split
  all_goals (try rfl)
  all_goals simp_all [ledger_processTokens, ledger_logSlotResolution]

theorem resolutionCount_of_not_hasResolution (slug : String)
    (L : List LedgerEntry) (h : hasResolution slug L = false) :
    resolutionCount slug L = 0 := by
  simp only [hasResolution, hasEntry, List.any_eq_false, List.mem_reverse]
    at h
  simp only [resolutionCount, List.length_eq_zero, List.filter_eq_nil_iff]
  intro e he
  exact h e he

theorem resolutionCount_append_resolution (s t slug : String) (w : UpDown)
    (L : List LedgerEntry) :
    resolutionCount s (L ++ [.resolution t slug w]) =
      resolutionCount s L + (if slug = s then 1 else 0) := by
  simp only [resolutionCount, List.filter_append, List.length_append]
  congr 1
  by_cases h : slug = s <;> simp [entryType, entrySlug, h, List.filter]

theorem resolutionCount_slotResolutionLedger (o : SweepOracle) (cs : ℤ)
    (t : String) (i : ℕ) (L : List LedgerEntry) (s : String) :
    resolutionCount s (slotResolutionLedger o cs t i L) ≤
      max 1 (resolutionCount s L) := by
  unfold slotResolutionLedger
  repeat' split
  all_goals (try exact le_max_right _ _)
  rename_i hres
  rw [resolutionCount_append_resolution]
  by_cases hs : slugFor cs i = s
  · subst hs
    rw [if_pos rfl,
      resolutionCount_of_not_hasResolution _ L (by simpa using hres)]
    exact le_max_left _ _
  · rw [if_neg hs, Nat.add_zero]
    exact le_max_right _ _

theorem slotResolutionLedger_change (o : SweepOracle) (cs : ℤ)
    (t : String) (i : ℕ) (L : List LedgerEntry)
    (h : slotResolutionLedger o cs t i L ≠ L) :
    ∃ m w, o.gamma i = some m ∧ m.conditionId ≠ ""
      ∧ getWinner m = some w
      ∧ hasResolution (slugFor cs i) L = false
      ∧ slotResolutionLedger o cs t i L =
          L ++ [.resolution t (slugFor cs i) w] := by
  unfold slotResolutionLedger at h ⊢
  obtain hg | ⟨m, hg⟩ : o.gamma i = none ∨ ∃ m, o.gamma i = some m := by
    cases o.gamma i with
    | none => exact Or.inl rfl
    | some m => exact Or.inr ⟨m, rfl⟩
  · rw [hg] at h
    exact absurd rfl h
  · rw [hg] at h ⊢
    dsimp only at h ⊢
    by_cases hcid : m.conditionId = ""
    · rw [if_pos hcid] at h
      exact absurd rfl h
    · rw [if_neg hcid] at h ⊢
      obtain hw | ⟨w, hw⟩ : getWinner m = none ∨ ∃ w, getWinner m = some w := by
        cases getWinner m with
        | none => exact Or.inl rfl
        | some w => exact Or.inr ⟨w, rfl⟩
      · rw [hw] at h
        exact absurd rfl h
      · rw [hw] at h ⊢
        dsimp only at h ⊢
        by_cases hres : hasResolution (slugFor cs i) L = true
        · rw [if_neg (not_not_intro hres)] at h
          exact absurd rfl h
        · rw [if_pos hres] at h ⊢
          exact ⟨m, w, rfl, hcid, hw, by simpa using hres, rfl⟩

theorem resolutionCount_processSlots (o : SweepOracle) (cs : ℤ)
    (t : String) (is : List ℕ) : ∀ (st : SweepState) (s : String),
    resolutionCount s st.ledger ≤ 1 →
    resolutionCount s (processSlots o cs t is st).ledger ≤ 1 := by
  induction is with
  | nil => intro st s h; exact h
  | cons i rest ih =>
    intro st s h
    have hstep : resolutionCount s (processSlot o cs t i st).1.ledger
        ≤ 1 := by
      rw [processSlot_fst_ledger]
      exact le_trans (resolutionCount_slotResolutionLedger o cs t i
        st.ledger s) (max_le le_rfl h)
    simp only [processSlots]
    split_ifs
    · exact hstep
    · exact ih _ s hstep

theorem resolutionCount_runRedemptionSweep (o : SweepOracle)
    (nowSec : ℕ) (t : String) (L : List LedgerEntry) (s : String)
    (h : resolutionCount s L ≤ 1) :
    resolutionCount s (runRedemptionSweep o nowSec t L).ledger ≤ 1 := by
  unfold runRedemptionSweep
  rcases o.nativeBalance with _ | bal
  · exact h
  · simp only
    split_ifs
    · exact h
    · exact resolutionCount_processSlots o _ t _ ⟨L, [], 0⟩ s h

/-- C8: (i) across any number of sequential sweep invocations, every
window slug keeps at most one resolution entry in the ledger, given the
starting ledger already satisfies this (in particular from the empty
ledger); (ii) one slot changes the ledger only by appending a single
resolution fact, and only when the winning outcome is decodable and no
resolution for the slot's slug already exists in the ledger. -/
theorem sweep_resolution_idempotent :
    (∀ (runs : List SweepRun) (L : List LedgerEntry) (s : String),
      resolutionCount s L ≤ 1 → resolutionCount s (runSweeps runs L) ≤ 1)
    ∧ (∀ (o : SweepOracle) (cs : ℤ) (t : String) (i : ℕ) (st : SweepState),
      (processSlot o cs t i st).1.ledger ≠ st.ledger →
      ∃ m w, o.gamma i = some m ∧ m.conditionId ≠ ""
        ∧ getWinner m = some w
        ∧ hasResolution (slugFor cs i) st.ledger = false
        ∧ (processSlot o cs t i st).1.ledger =
            st.ledger ++ [.resolution t (slugFor cs i) w]) := by
  constructor
  · intro runs
    induction runs with
    | nil => intro L s h; exact h
    | cons r rest ih =>
      intro L s h
      exact ih _ s (resolutionCount_runRedemptionSweep r.oracle r.nowSec
        r.timeStr L s h)
  · intro o cs t i st hne
    rw [processSlot_fst_ledger] at hne ⊢
    exact slotResolutionLedger_change o cs t i st.ledger hne

/-- An oracle for the closed instantiation: slot 1 resolves Up. -/
def sampleOracle : SweepOracle where
  nativeBalance := some 1
  gamma := fun i =>
    if i = 1 then
      some ⟨"cond-a", ["Up", "Down"], some [1, 0], some []⟩
    else none
  balanceOf := fun _ _ => none
  redeem := fun _ _ => .receiptSuccess

/-- C8 witness. -/
theorem sweep_resolution_idempotent_inst :
    resolutionCount "btc-updown-15m-0" ([] : List LedgerEntry) ≤ 1
    ∧ resolutionCount "btc-updown-15m-0"
        (runSweeps [⟨sampleOracle, 1800, "T"⟩] []) ≤ 1 :=
  ⟨by simp [resolutionCount],
    sweep_resolution_idempotent.1 [⟨sampleOracle, 1800, "T"⟩] []
      "btc-updown-15m-0" (by simp [resolutionCount])⟩

/-- C9: (i) a redemption attempt failing with a reason containing
"insufficient funds" makes the token loop return at once with the abort
flag — the returned state does not depend on the remaining tokens;
(ii) an aborted slot makes the slot loop return its state at once,
skipping every remaining window; (iii) any other submission error is
only logged: the loop continues with the next token. -/
theorem sweep_insufficient_funds_aborts :
    (∀ (o : SweepOracle) (i : ℕ) (slug tok : String) (st : SweepState)
        (ts : List String) (bal : ℚ) (reason : String),
      o.balanceOf i tok = some bal → bal > 0 →
      o.redeem i tok = .submitError reason →
      strContains reason "insufficient funds" = true →
      processTokens o i slug (tok :: ts) st =
        ({ st with attempts := st.attempts ++ [(slug, tok)] }, true))
    ∧ (∀ (o : SweepOracle) (cs : ℤ) (t : String) (i : ℕ) (is : List ℕ)
        (st : SweepState),
      (processSlot o cs t i st).2 = true →
      processSlots o cs t (i :: is) st = (processSlot o cs t i st).1)
    ∧ (∀ (o : SweepOracle) (i : ℕ) (slug tok : String) (st : SweepState)
        (ts : List String) (bal : ℚ) (reason : String),
      o.balanceOf i tok = some bal → bal > 0 →
      o.redeem i tok = .submitError reason →
      strContains reason "insufficient funds" = false →
      processTokens o i slug (tok :: ts) st =
        processTokens o i slug ts
          { st with attempts := st.attempts ++ [(slug, tok)] }) := by
  refine ⟨?_, ?_, ?_⟩
  · intro o i slug tok st ts bal reason hbal hpos hred hcontains
    have hpt : processToken o i slug tok st =
        ({ st with attempts := st.attempts ++ [(slug, tok)] }, true) := by
      unfold processToken
      rw [hbal]
      dsimp only
      rw [if_pos hpos, hred]
      dsimp only
      rw [if_pos hcontains]
    simp [processTokens, hpt]
  · intro o cs t i is st habort
    simp only [processSlots, habort, if_pos]
  · intro o i slug tok st ts bal reason hbal hpos hred hcontains
    have hpt : processToken o i slug tok st =
        ({ st with attempts := st.attempts ++ [(slug, tok)] }, false) := by
      unfold processToken
      rw [hbal]
      dsimp only
      rw [if_pos hpos, hred]
      dsimp only
      rw [if_neg (by simp [hcontains])]
    simp only [processTokens, hpt]
    rfl

/-- An oracle whose every redemption attempt fails for lack of gas. -/
def abortOracle : SweepOracle where
  nativeBalance := some 1
  gamma := fun _ => some ⟨"cond-a", ["Up", "Down"], none, some ["tok"]⟩
  balanceOf := fun _ _ => some 1
  redeem := fun _ _ => .submitError "insufficient funds for gas"

/-- C9 witness. -/
theorem sweep_insufficient_funds_aborts_inst :
    strContains "insufficient funds for gas" "insufficient funds" = true
    ∧ processTokens abortOracle 1 "slug-w" ["tok", "tok2"] ⟨[], [], 0⟩ =
      ({ (⟨[], [], 0⟩ : SweepState) with
          attempts := (⟨[], [], 0⟩ : SweepState).attempts
            ++ [("slug-w", "tok")] }, true)
    ∧ processSlots abortOracle 0 "T" [1, 2] ⟨[], [], 0⟩ =
      (processSlot abortOracle 0 "T" 1 ⟨[], [], 0⟩).1 :=
  ⟨by decide,
    sweep_insufficient_funds_aborts.1 abortOracle 1 "slug-w" "tok"
      ⟨[], [], 0⟩ ["tok2"] 1 "insufficient funds for gas" rfl
      (by norm_num) rfl (by decide),
    sweep_insufficient_funds_aborts.2.1 abortOracle 0 "T" 1 [2]
      ⟨[], [], 0⟩ (by decide)⟩

end PolyBot
